import Mathlib

/-!
Verification development for the Bybit grid/hedge trading bot.

This file shallowly embeds the decision logic of the repository:
the market-regime classifier, the ATR computation, the dynamic grid
planner (spacing, levels, order quantity), the entry-sizing rule and
the per-symbol position/hedge lifecycle of the main loop.  JavaScript
numbers are modelled as exact rationals; the display rounding
(`toFixed`) applied when storing grid prices is elided.  Fallible
exchange calls are outside the modelled core: the demo-mode paths,
in which no exchange call is made and the state transitions are total,
are the ones embedded.
-/

/-- Market regime tags emitted by the classifier. -/
inductive Regime
  | BULL
  | BEAR
  | SIDEWAYS
  | VOLATILE
  | UNKNOWN
deriving DecidableEq, Repr

/-- Arithmetic mean of a list of rationals (JS `reduce((a,b)=>a+b,0)/length`). -/
def listAvg (l : List ℚ) : ℚ := l.sum / (l.length : ℚ)

/-- JS `slice(-n)`: the last `n` elements of a list. -/
def lastN (n : Nat) (l : List α) : List α := l.drop (l.length - n)

/-- JS `slice(-20,-10)`: the 10 elements preceding the last 10
(as used by the classifier, which only calls it on histories of length at least 20). -/
def prev10 (l : List ℚ) : List ℚ := (lastN 20 l).take 10

/-- Momentum: the mean of the most recent 10 samples minus the mean of the
preceding 10 samples, normalized by the latter
(part_001 lines 291-295, part_000 lines 1097-1101). -/
def momentum (hist : List ℚ) : ℚ :=
  let recentAvg := listAvg (lastN 10 hist)
  let olderAvg := listAvg (prev10 hist)
  (recentAvg - olderAvg) / olderAvg

/-- The classifier thresholds
(CONFIG.BULL_MARKET_THRESHOLD, CONFIG.BEAR_MARKET_THRESHOLD,
CONFIG.VOLATILITY_THRESHOLD in part_001; part_000 hard-codes bull = 1/50 and
bear = -1/50). -/
structure RegimeThresholds where
  bullThreshold : ℚ
  bearThreshold : ℚ
  volatilityThreshold : ℚ
deriving Repr, DecidableEq

/-- Pure classification core of `detectMarketCondition`
(part_001 lines 289-306; part_000 lines 1095-1107). -/
def detectRegimeCore (th : RegimeThresholds) (hist : List ℚ) (vol : ℚ) : Regime :=
  if hist.length < 20 then .UNKNOWN
  else if momentum hist > th.bullThreshold ∧ vol < th.volatilityThreshold then .BULL
  else if momentum hist < th.bearThreshold ∧ vol < th.volatilityThreshold then .BEAR
  else if vol > th.volatilityThreshold then .VOLATILE
  else .SIDEWAYS

/-- The mutable observation state of the grid bot that the planner reads
(fields of `ProfitableGridTradingBot`; `marketCondition` is initialized to
SIDEWAYS in the constructor, part_000 line 1013). -/
structure GridBotState where
  priceHistory : List ℚ
  volatilityIndex : ℚ
  marketCondition : Regime
  atr : ℚ
  currentPrice : ℚ
deriving Repr, DecidableEq

/-- Stateful `detectMarketCondition`: with fewer than 20 samples it returns
UNKNOWN without writing `marketCondition`; otherwise it stores the computed
regime and returns it (part_000 lines 1095-1107). -/
def detectMarketCondition (th : RegimeThresholds) (s : GridBotState) :
    Regime × GridBotState :=
  if s.priceHistory.length < 20 then (.UNKNOWN, s)
  else
    let r := detectRegimeCore th s.priceHistory s.volatilityIndex
    (r, { s with marketCondition := r })

/-- First-match-wins evaluation of a rule table: the result attached to the
first true condition, or the default if none matches. -/
def firstMatch (rules : List (Bool × Regime)) (dflt : Regime) : Regime :=
  match rules with
  | [] => dflt
  | (c, r) :: rest => if c then r else firstMatch rest dflt

/-- The decision table exactly as the spec states it, row by row, in its
fixed order; SIDEWAYS is the otherwise-row. -/
def specRegimeRules (th : RegimeThresholds) (hist : List ℚ) (vol : ℚ) :
    List (Bool × Regime) :=
  [ (decide (hist.length < 20), .UNKNOWN),
    (decide (momentum hist > th.bullThreshold) && decide (vol < th.volatilityThreshold), .BULL),
    (decide (momentum hist < th.bearThreshold) && decide (vol < th.volatilityThreshold), .BEAR),
    (decide (vol > th.volatilityThreshold), .VOLATILE) ]

/-- C4: for every price history, volatility value and threshold configuration,
the regime classifier computes exactly the spec decision table evaluated
first-match-wins, and the stateful variant returns that same classification. -/
theorem regime_decision_table (th : RegimeThresholds) (hist : List ℚ) (vol : ℚ)
    (s : GridBotState) :
    detectRegimeCore th hist vol = firstMatch (specRegimeRules th hist vol) .SIDEWAYS ∧
    (detectMarketCondition th s).1 =
      detectRegimeCore th s.priceHistory s.volatilityIndex := by
  constructor
  · unfold detectRegimeCore firstMatch specRegimeRules
    by_cases h1 : hist.length < 20 <;>
      by_cases h2 : momentum hist > th.bullThreshold <;>
        by_cases h3 : vol < th.volatilityThreshold <;>
          by_cases h4 : momentum hist < th.bearThreshold <;>
            by_cases h5 : vol > th.volatilityThreshold <;>
              simp [h1, h2, h3, h4, h5, firstMatch]
  · unfold detectMarketCondition detectRegimeCore
    by_cases h1 : s.priceHistory.length < 20 <;> simp [h1]

/-! ### ATR computation (C5) -/

/-- One kline bar; the open, volume and timestamp fields are not read by the
ATR computation and are elided. -/
structure Candle where
  high : ℚ
  low : ℚ
  close : ℚ
deriving Repr, DecidableEq

/-- True range of a bar given the previous bar:
max(high-low, |high-prevClose|, |low-prevClose|). -/
def trueRange (prev cur : Candle) : ℚ :=
  max (cur.high - cur.low) (max |cur.high - prev.close| |cur.low - prev.close|)

/-- Sum of true ranges over consecutive bar pairs (the loop at
part_000 lines 1075-1081, after the newest-first response is reversed). -/
def trSum (klines : List Candle) : ℚ :=
  ((klines.zip klines.tail).map (fun p => trueRange p.1 p.2)).sum

/-- The per-request ATR of part_000 `calculateATR` (lines 1068-1086): a value
is produced only when strictly more than `P` bars arrived; otherwise the
source throws ("Invalid ATR data"), modelled as `none`. -/
def calculateATRklines (P : Nat) (klines : List Candle) : Option ℚ :=
  if P < klines.length then some (trSum klines / (P : ℚ)) else none

/-- The function `calculateDemoATR` (server.js lines 358-370): half the range of the last
10 price-history samples, or 1% of the current price when fewer than 10
samples exist. -/
def calculateDemoATR (priceHistory : List ℚ) (currentPrice : ℚ) : ℚ :=
  if 10 ≤ priceHistory.length then
    (((lastN 10 priceHistory).foldl max ((lastN 10 priceHistory).headD 0)) -
      ((lastN 10 priceHistory).foldl min ((lastN 10 priceHistory).headD 0))) / 2
  else currentPrice * (1 / 100)

/-- The `calculateATR` of server.js (lines 304-356, live path): averages the
per-interval ATRs over the intervals that returned more than `P` bars; when no
interval qualifies the thrown error is caught and the demo ATR is returned. -/
def serverCalculateATR (P : Nat) (intervalKlines : List (List Candle))
    (priceHistory : List ℚ) (currentPrice : ℚ) : ℚ :=
  let valids := intervalKlines.filterMap (calculateATRklines P)
  if 0 < valids.length then valids.sum / (valids.length : ℚ)
  else calculateDemoATR priceHistory currentPrice

/-- C5 counterexample: when every kline request returns fewer than
ATR_PERIOD+1 bars (here: empty lists, ATR_PERIOD = 14), the server.js variant
does not report insufficient data — it produces the numeric demo ATR
45000 × 1% = 450, so ATR-dependent logic is not skipped for that tick. -/
theorem server_atr_counterexample :
    serverCalculateATR 14 [[], [], []] [] 45000 = 450 := by
  norm_num [serverCalculateATR, calculateATRklines, calculateDemoATR]

/-- C5 amended: the kline-based ATR computation of part_000/part_001 reports
no value on fewer than ATR_PERIOD+1 bars (the source throws, skipping the
tick), and the server.js variant, when no interval returns enough bars, falls
back to the demo ATR computed from recent price history instead of reporting
insufficient data. -/
theorem atr_insufficient_data (P : Nat) (klines : List Candle)
    (kls : List (List Candle)) (hist : List ℚ) (cp : ℚ) :
    (klines.length < P + 1 → calculateATRklines P klines = none) ∧
    ((∀ l ∈ kls, List.length l < P + 1) →
      serverCalculateATR P kls hist cp = calculateDemoATR hist cp) := by
  constructor
  · intro h
    unfold calculateATRklines
    have : ¬ P < klines.length := by omega
    simp [this]
  · intro h
    unfold serverCalculateATR
    have hnone : ∀ l ∈ kls, calculateATRklines P l = none := by
      intro l hl
      unfold calculateATRklines
      have : ¬ P < l.length := by
        have := h l hl
        omega
      simp [this]
    have : kls.filterMap (calculateATRklines P) = [] := by
      apply List.filterMap_eq_nil_iff.mpr
      intro a ha
      simp [hnone a ha]
    simp [this]

/-- Witness for `atr_insufficient_data` at ATR_PERIOD = 14, a single 14-bar
request list and a fallback state with empty price history. -/
theorem atr_insufficient_data_witness :
    ((List.replicate 14 ({ high := 2, low := 1, close := 1 } : Candle)).length < 14 + 1 ∧
      calculateATRklines 14 (List.replicate 14 { high := 2, low := 1, close := 1 }) = none) ∧
    ((∀ l ∈ [([] : List Candle)], List.length l < 14 + 1) ∧
      serverCalculateATR 14 [[]] [] 45000 = calculateDemoATR [] 45000) :=
  ⟨⟨by simp, (atr_insufficient_data 14
      (List.replicate 14 { high := 2, low := 1, close := 1 }) [[]] [] 45000).1 (by simp)⟩,
   ⟨by simp, (atr_insufficient_data 14
      (List.replicate 14 { high := 2, low := 1, close := 1 }) [[]] [] 45000).2 (by simp)⟩⟩

/-! ### Dynamic grid planner (C6, C7, C8) -/

/-- The grid-bot configuration fields read by the planner
(CONFIG in part_000 lines 951-981). -/
structure GridConfig where
  BASE_INVESTMENT : ℚ
  GRID_LEVELS : Nat
  GRID_SPACING : ℚ
  MIN_GRID_SPACING : ℚ
  MAX_GRID_SPACING : ℚ
  ATR_MULTIPLIER : ℚ
  MAX_POSITION_SIZE : ℚ
deriving Repr, DecidableEq

/-- Regime multiplier applied to grid spacing
(part_000 lines 1113-1118: BULL ×1.2, BEAR ×0.9, VOLATILE ×1.5, SIDEWAYS ×1;
a regime outside the switch leaves the spacing unchanged). -/
def spacingRegimeMult (r : Regime) : ℚ :=
  match r with
  | .BULL => 12 / 10
  | .BEAR => 9 / 10
  | .VOLATILE => 3 / 2
  | .SIDEWAYS => 1
  | .UNKNOWN => 1

/-- The function `calculateDynamicGridSpacing` (part_000 lines 1110-1120): the static
default when ATR or price is unset (JS falsy), otherwise
clamp(ATR/price × 0.8) scaled by the regime multiplier and clamped again. -/
def calculateDynamicGridSpacing (cfg : GridConfig) (s : GridBotState) : ℚ :=
  if s.atr = 0 ∨ s.currentPrice = 0 then cfg.GRID_SPACING
  else
    let base := max cfg.MIN_GRID_SPACING
      (min cfg.MAX_GRID_SPACING (s.atr / s.currentPrice * (8 / 10)))
    let scaled := base * spacingRegimeMult s.marketCondition
    max cfg.MIN_GRID_SPACING (min cfg.MAX_GRID_SPACING scaled)

/-- The spacing formula exactly as the claim states it:
clamp(ATR/price × 0.8, minSpacing, maxSpacing) scaled by the regime
multiplier — with no re-clamp after the scaling. -/
def claimGridSpacing (cfg : GridConfig) (s : GridBotState) : ℚ :=
  max cfg.MIN_GRID_SPACING
    (min cfg.MAX_GRID_SPACING (s.atr / s.currentPrice * (8 / 10))) *
    spacingRegimeMult s.marketCondition

/-- A concrete VOLATILE planner state: ATR 3, price 80, so
ATR/price × 0.8 = 0.03 clamps to 0.025 before the ×1.5 regime scaling. -/
def volatileGridState : GridBotState :=
  { priceHistory := [], volatilityIndex := 1 / 10, marketCondition := .VOLATILE,
    atr := 3, currentPrice := 80 }

/-- The part_000 configuration constants used for concrete evaluations
(BASE_INVESTMENT 1000, GRID_LEVELS 12, spacing 0.007 in [0.004, 0.025],
ATR_MULTIPLIER 1.7, MAX_POSITION_SIZE 0.09). -/
def gridConfig0 : GridConfig :=
  { BASE_INVESTMENT := 1000, GRID_LEVELS := 12, GRID_SPACING := 7 / 1000,
    MIN_GRID_SPACING := 4 / 1000, MAX_GRID_SPACING := 25 / 1000,
    ATR_MULTIPLIER := 17 / 10, MAX_POSITION_SIZE := 9 / 100 }

/-- C6 counterexample: in the VOLATILE state above the claim formula yields
0.025 × 1.5 = 0.0375, but the code re-clamps the scaled value to the
[minSpacing, maxSpacing] band and returns 0.025. -/
theorem grid_spacing_counterexample :
    calculateDynamicGridSpacing gridConfig0 volatileGridState ≠
      claimGridSpacing gridConfig0 volatileGridState ∧
    calculateDynamicGridSpacing gridConfig0 volatileGridState = 25 / 1000 ∧
    claimGridSpacing gridConfig0 volatileGridState = 375 / 10000 := by
  norm_num [calculateDynamicGridSpacing, claimGridSpacing, spacingRegimeMult,
    volatileGridState, gridConfig0]

/-- C6 amended: whenever ATR and price are set, the grid spacing equals the
claim formula — clamp(ATR/price × 0.8, minSpacing, maxSpacing) scaled by the
regime multiplier — re-clamped to [minSpacing, maxSpacing]. -/
theorem grid_spacing_amended (cfg : GridConfig) (s : GridBotState) :
    s.atr ≠ 0 → s.currentPrice ≠ 0 →
    calculateDynamicGridSpacing cfg s =
      max cfg.MIN_GRID_SPACING (min cfg.MAX_GRID_SPACING (claimGridSpacing cfg s)) := by
  intro ha hp
  unfold calculateDynamicGridSpacing claimGridSpacing
  simp [ha, hp]

/-- Witness for `grid_spacing_amended` at the concrete VOLATILE state. -/
theorem grid_spacing_amended_witness :
    volatileGridState.atr ≠ 0 ∧ volatileGridState.currentPrice ≠ 0 ∧
    calculateDynamicGridSpacing gridConfig0 volatileGridState =
      max gridConfig0.MIN_GRID_SPACING
        (min gridConfig0.MAX_GRID_SPACING (claimGridSpacing gridConfig0 volatileGridState)) :=
  ⟨by norm_num [volatileGridState], by norm_num [volatileGridState],
   grid_spacing_amended gridConfig0 volatileGridState
     (by norm_num [volatileGridState]) (by norm_num [volatileGridState])⟩

/-- Regime multiplier applied to order quantity
(part_000 lines 1154-1158: VOLATILE ×0.7, BULL ×1.1, BEAR ×0.9, others ×1).
Note this is a different table from `spacingRegimeMult`. -/
def quantityRegimeMult (r : Regime) : ℚ :=
  match r with
  | .VOLATILE => 7 / 10
  | .BULL => 11 / 10
  | .BEAR => 9 / 10
  | .SIDEWAYS => 1
  | .UNKNOWN => 1

/-- The function `calculateOrderQuantity` (part_000 lines 1150-1160); the regime argument
is the bot's stored `marketCondition`. -/
def calculateOrderQuantity (cfg : GridConfig) (r : Regime) (price : ℚ) : ℚ :=
  let baseQuantity := cfg.BASE_INVESTMENT / (cfg.GRID_LEVELS : ℚ) / price
  let maxQuantity := cfg.BASE_INVESTMENT * cfg.MAX_POSITION_SIZE / price
  let adjustedQuantity := min baseQuantity maxQuantity * quantityRegimeMult r
  max adjustedQuantity (1 / 1000)

/-- The order quantity exactly as the claim states it: adjusted by the same
regime multipliers used for grid spacing. -/
def claimOrderQuantity (cfg : GridConfig) (r : Regime) (price : ℚ) : ℚ :=
  max (min (cfg.BASE_INVESTMENT / (cfg.GRID_LEVELS : ℚ) / price)
        (cfg.BASE_INVESTMENT * cfg.MAX_POSITION_SIZE / price) *
      spacingRegimeMult r) (1 / 1000)

/-- The order quantity as amended: its own regime multiplier table
(VOLATILE ×0.7, BULL ×1.1, BEAR ×0.9, otherwise ×1), floored at the
hard-coded minimum 0.001. -/
def amendedOrderQuantity (cfg : GridConfig) (r : Regime) (price : ℚ) : ℚ :=
  max (min (cfg.BASE_INVESTMENT / (cfg.GRID_LEVELS : ℚ) / price)
        (cfg.BASE_INVESTMENT * cfg.MAX_POSITION_SIZE / price) *
      quantityRegimeMult r) (1 / 1000)

/-- C8 counterexample: in a VOLATILE regime at price 1 under the part_000
configuration, the code computes min(1000/12, 90) × 0.7 = 175/3 ≈ 58.33,
while the claim formula (spacing multipliers, ×1.5) gives 125. -/
theorem order_quantity_counterexample :
    calculateOrderQuantity gridConfig0 .VOLATILE 1 ≠
      claimOrderQuantity gridConfig0 .VOLATILE 1 ∧
    calculateOrderQuantity gridConfig0 .VOLATILE 1 = 175 / 3 ∧
    claimOrderQuantity gridConfig0 .VOLATILE 1 = 125 := by
  norm_num [calculateOrderQuantity, claimOrderQuantity, spacingRegimeMult,
    quantityRegimeMult, gridConfig0]

/-- C8 amended: for every configuration, regime and level price, the order
quantity equals min(baseInvestment/levels/price,
baseInvestment×maxPositionFraction/price) adjusted by the quantity regime
multipliers (VOLATILE ×0.7, BULL ×1.1, BEAR ×0.9, otherwise ×1) — not the
spacing multipliers — and floored at the hard-coded minimum lot 0.001. -/
theorem order_quantity_amended (cfg : GridConfig) (r : Regime) (price : ℚ) :
    calculateOrderQuantity cfg r price = amendedOrderQuantity cfg r price := by
  unfold calculateOrderQuantity amendedOrderQuantity
  rfl

/-! ### The stored regime field never holds UNKNOWN (C10) -/

/-- The planner state as built by the `ProfitableGridTradingBot` constructor
(part_000 lines 1003-1019): `marketCondition` starts at SIDEWAYS. -/
def initialGridBotState : GridBotState :=
  { priceHistory := [], volatilityIndex := 0, marketCondition := .SIDEWAYS,
    atr := 0, currentPrice := 0 }

/-- One observation step of the bot loop: the price history and volatility
index are refreshed from the feed, then `detectMarketCondition` runs
(part_000 lines 1425-1428). -/
def observeAndClassify (th : RegimeThresholds) (s : GridBotState)
    (obs : List ℚ × ℚ) : GridBotState :=
  (detectMarketCondition th
    { s with priceHistory := obs.1, volatilityIndex := obs.2 }).2

/-- On histories of at least 20 samples the classification core never
produces UNKNOWN. -/
theorem detectRegimeCore_ne_unknown (th : RegimeThresholds) (hist : List ℚ)
    (vol : ℚ) (h : ¬ hist.length < 20) :
    detectRegimeCore th hist vol ≠ .UNKNOWN := by
  unfold detectRegimeCore
  simp only [h, if_false]
  split
  · simp
  · split
    · simp
    · split <;> simp

/-- One classification step preserves a non-UNKNOWN stored regime. -/
theorem observeAndClassify_ne_unknown (th : RegimeThresholds)
    (s : GridBotState) (obs : List ℚ × ℚ)
    (h : s.marketCondition ≠ .UNKNOWN) :
    (observeAndClassify th s obs).marketCondition ≠ .UNKNOWN := by
  unfold observeAndClassify detectMarketCondition
  by_cases hl : obs.1.length < 20
  · simpa [hl] using h
  · simpa [hl] using detectRegimeCore_ne_unknown th obs.1 obs.2 hl

/-- C10: with fewer than 20 samples the classifier returns UNKNOWN leaving
the whole state (in particular the stored `marketCondition`) untouched; a
stored non-UNKNOWN regime stays non-UNKNOWN across a classification; and
along every run from the constructor state (SIDEWAYS) the stored field —
the one read by `calculateDynamicGridSpacing` and `calculateOrderQuantity` —
is never UNKNOWN. -/
theorem unknown_not_stored (th : RegimeThresholds) (s : GridBotState)
    (obsl : List (List ℚ × ℚ)) :
    (s.priceHistory.length < 20 → detectMarketCondition th s = (.UNKNOWN, s)) ∧
    (s.marketCondition ≠ .UNKNOWN →
      ((detectMarketCondition th s).2).marketCondition ≠ .UNKNOWN) ∧
    (obsl.foldl (observeAndClassify th) initialGridBotState).marketCondition ≠
      .UNKNOWN := by
  refine ⟨fun h => by simp [detectMarketCondition, h], fun h => ?_, ?_⟩
  · unfold detectMarketCondition
    by_cases hl : s.priceHistory.length < 20
    · simpa [hl] using h
    · simpa [hl] using detectRegimeCore_ne_unknown th s.priceHistory s.volatilityIndex hl
  · have key : ∀ (l : List (List ℚ × ℚ)) (st : GridBotState),
        st.marketCondition ≠ .UNKNOWN →
        (l.foldl (observeAndClassify th) st).marketCondition ≠ .UNKNOWN := by
      intro l
      induction l with
      | nil => intro st h; simpa using h
      | cons a t ih =>
        intro st h
        exact ih _ (observeAndClassify_ne_unknown th st a h)
    exact key obsl initialGridBotState (by simp [initialGridBotState])

/-- Fixed thresholds of the part_000 classifier (bull 0.02, bear -0.02,
volatility 0.02). -/
def thresholds0 : RegimeThresholds :=
  { bullThreshold := 1 / 50, bearThreshold := -(1 / 50), volatilityThreshold := 1 / 50 }

/-- Witness for `unknown_not_stored` at the constructor state (history of
length 0) and a single observation. -/
theorem unknown_not_stored_witness :
    initialGridBotState.priceHistory.length < 20 ∧
    detectMarketCondition thresholds0 initialGridBotState =
      (.UNKNOWN, initialGridBotState) ∧
    initialGridBotState.marketCondition ≠ .UNKNOWN ∧
    ((detectMarketCondition thresholds0 initialGridBotState).2).marketCondition ≠ .UNKNOWN ∧
    ([([], 0)].foldl (observeAndClassify thresholds0)
        initialGridBotState).marketCondition ≠ .UNKNOWN :=
  ⟨by simp [initialGridBotState],
   (unknown_not_stored thresholds0 initialGridBotState [([], 0)]).1
     (by simp [initialGridBotState]),
   by simp [initialGridBotState],
   (unknown_not_stored thresholds0 initialGridBotState [([], 0)]).2.1
     (by simp [initialGridBotState]),
   (unknown_not_stored thresholds0 initialGridBotState [([], 0)]).2.2⟩

/-! ### Grid level generation (C7) -/

/-- One grid level as built by `generateGridLevels` (part_000 lines 1137-1144). -/
structure GridLevel where
  level : Nat
  buyPrice : ℚ
  sellPrice : ℚ
  quantity : ℚ
  active : Bool
  priceDistance : ℚ
deriving Repr, DecidableEq

/-- The level built for index `i` (the loop body, part_000 lines 1131-1144). -/
def gridLevelOf (cfg : GridConfig) (s : GridBotState) (spacing : ℚ) (i : Nat) :
    GridLevel :=
  let centerPrice := s.currentPrice
  let atrRange := s.atr * cfg.ATR_MULTIPLIER
  let lowerBound := centerPrice - atrRange
  let upperBound := centerPrice + atrRange
  let levelSpacing := (upperBound - lowerBound) / (cfg.GRID_LEVELS : ℚ)
  let buyPrice := lowerBound + levelSpacing * (i : ℚ)
  { level := i
    buyPrice := buyPrice
    sellPrice := buyPrice * (1 + spacing)
    quantity := calculateOrderQuantity cfg s.marketCondition buyPrice
    active := false
    priceDistance := |buyPrice - centerPrice| / centerPrice }

/-- The function `generateGridLevels` (part_000 lines 1122-1148): indices 0..N-1 are
mapped to levels, levels closer to center than spacing × 0.5 are skipped
(the `continue`), and the survivors are sorted ascending by distance from
center (the final comparator sort).  The JS sort is modelled by insertion
sort over the same comparator. -/
def generateGridLevels (cfg : GridConfig) (s : GridBotState) : List GridLevel :=
  let spacing := calculateDynamicGridSpacing cfg s
  let raw := ((List.range cfg.GRID_LEVELS).map (gridLevelOf cfg s spacing)).filter
    (fun l => decide (¬ l.priceDistance < spacing * (1 / 2)))
  List.insertionSort (fun a b => a.priceDistance ≤ b.priceDistance) raw

instance : DecidableRel (fun a b : GridLevel => a.priceDistance ≤ b.priceDistance) :=
  fun a b => inferInstanceAs (Decidable (a.priceDistance ≤ b.priceDistance))

instance : IsTotal GridLevel (fun a b => a.priceDistance ≤ b.priceDistance) :=
  ⟨fun a b => le_total a.priceDistance b.priceDistance⟩

instance : IsTrans GridLevel (fun a b => a.priceDistance ≤ b.priceDistance) :=
  ⟨fun _ _ _ hab hbc => le_trans hab hbc⟩

/-- C7: every produced level is one of the N equal buy-price steps of
[price − ATR×multiplier, price + ATR×multiplier], with sell price
buyPrice × (1+spacing) and distance at least spacing × 0.5 from center;
every index whose level is not closer to center than spacing × 0.5 survives;
and the output is sorted by distance from center, closest first. -/
theorem grid_levels_spec (cfg : GridConfig) (s : GridBotState) :
    (∀ l ∈ generateGridLevels cfg s,
      l.level < cfg.GRID_LEVELS ∧
      l.buyPrice = (s.currentPrice - s.atr * cfg.ATR_MULTIPLIER) +
        ((s.currentPrice + s.atr * cfg.ATR_MULTIPLIER) -
          (s.currentPrice - s.atr * cfg.ATR_MULTIPLIER)) / (cfg.GRID_LEVELS : ℚ) *
          (l.level : ℚ) ∧
      l.sellPrice = l.buyPrice * (1 + calculateDynamicGridSpacing cfg s) ∧
      l.priceDistance = |l.buyPrice - s.currentPrice| / s.currentPrice ∧
      ¬ l.priceDistance < calculateDynamicGridSpacing cfg s * (1 / 2)) ∧
    (∀ i < cfg.GRID_LEVELS,
      ¬ (gridLevelOf cfg s (calculateDynamicGridSpacing cfg s) i).priceDistance <
          calculateDynamicGridSpacing cfg s * (1 / 2) →
      gridLevelOf cfg s (calculateDynamicGridSpacing cfg s) i ∈
        generateGridLevels cfg s) ∧
    List.Sorted (fun a b => a.priceDistance ≤ b.priceDistance)
      (generateGridLevels cfg s) := by
  refine ⟨?_, ?_, ?_⟩
  · intro l hl
    rw [generateGridLevels, List.mem_insertionSort, List.mem_filter] at hl
    obtain ⟨hmap, hfar⟩ := hl
    rw [List.mem_map] at hmap
    obtain ⟨i, hi, hli⟩ := hmap
    rw [List.mem_range] at hi
    subst hli
    refine ⟨hi, rfl, rfl, rfl, ?_⟩
    simpa using hfar
  · intro i hi hfar
    rw [generateGridLevels, List.mem_insertionSort, List.mem_filter]
    constructor
    · exact List.mem_map_of_mem _ (List.mem_range.mpr hi)
    · simpa using hfar
  · exact List.sorted_insertionSort _ _

/-- A degenerate planner state for concrete grid evaluation: ATR 0 at price
100, so every level sits at the center and the static spacing 0 keeps all of
them. -/
def flatGridState : GridBotState :=
  { priceHistory := [], volatilityIndex := 0, marketCondition := .SIDEWAYS,
    atr := 0, currentPrice := 100 }

/-- A two-level configuration with static spacing 0 for the witness. -/
def gridConfigW : GridConfig :=
  { BASE_INVESTMENT := 1000, GRID_LEVELS := 2, GRID_SPACING := 0,
    MIN_GRID_SPACING := 0, MAX_GRID_SPACING := 1,
    ATR_MULTIPLIER := 1, MAX_POSITION_SIZE := 9 / 100 }

/-- Witness for `grid_levels_spec`: at the degenerate state level 0 passes the
distance filter, is a member of the generated grid, and carries the claimed
sell price. -/
theorem grid_levels_spec_witness :
    0 < gridConfigW.GRID_LEVELS ∧
    ¬ (gridLevelOf gridConfigW flatGridState
        (calculateDynamicGridSpacing gridConfigW flatGridState) 0).priceDistance <
      calculateDynamicGridSpacing gridConfigW flatGridState * (1 / 2) ∧
    gridLevelOf gridConfigW flatGridState
        (calculateDynamicGridSpacing gridConfigW flatGridState) 0 ∈
      generateGridLevels gridConfigW flatGridState ∧
    (gridLevelOf gridConfigW flatGridState
        (calculateDynamicGridSpacing gridConfigW flatGridState) 0).sellPrice =
      (gridLevelOf gridConfigW flatGridState
        (calculateDynamicGridSpacing gridConfigW flatGridState) 0).buyPrice *
        (1 + calculateDynamicGridSpacing gridConfigW flatGridState) := by
  have hfar : ¬ (gridLevelOf gridConfigW flatGridState
      (calculateDynamicGridSpacing gridConfigW flatGridState) 0).priceDistance <
      calculateDynamicGridSpacing gridConfigW flatGridState * (1 / 2) := by
    norm_num [gridLevelOf, calculateDynamicGridSpacing, gridConfigW, flatGridState]
  have hmem := (grid_levels_spec gridConfigW flatGridState).2.1 0
    (by norm_num [gridConfigW]) hfar
  exact ⟨by norm_num [gridConfigW], hfar, hmem,
    ((grid_levels_spec gridConfigW flatGridState).1 _ hmem).2.2.1⟩

/-! ### Per-symbol configuration and entry sizing (C9) -/

/-- The per-symbol configuration fields read by the main loop
(config.SYMBOLS entries, part_000 lines 91-107). -/
structure SymbolConfig where
  CAPITAL : ℚ
  RISK_PERCENT : ℚ
  LEVERAGE : ℚ
  HEDGE_LOSS_PERCENT : ℚ
  HEDGE_TP_PERCENT : ℚ
  HEDGE_SL_PERCENT : ℚ
  MAIN_TP_PERCENT : ℚ
  MAIN_PROTECTION_START : ℚ
  MAIN_PROTECTION_PERCENT : ℚ
deriving Repr, DecidableEq

/-- Minimum lot sizes per symbol (part_000 lines 138-144). -/
def MIN_LOT_SIZES : List (String × ℚ) :=
  [("BTCUSDT", 1 / 1000), ("ETHUSDT", 1 / 100), ("SOLUSDT", 1 / 10),
   ("XRPUSDT", 20), ("BNBUSDT", 7 / 100)]

/-- Fallback minimum lot (part_000 line 145). -/
def DEFAULT_MIN_LOT : ℚ := 1 / 1000

/-- The lookup `MIN_LOT_SIZES[sym] || DEFAULT_MIN_LOT` (part_000 line 458). -/
def minLotFor (sym : String) : ℚ := (MIN_LOT_SIZES.lookup sym).getD DEFAULT_MIN_LOT

/-- Entry sizing (mainLoop, part_000 lines 449-466): the risk-based size
capital × riskPercent/100 × leverage / price, substituted by the minimum lot
when below it; the Bool records whether the below-minimum warning was sent. -/
def entrySizing (cfg : SymbolConfig) (minLot px : ℚ) : ℚ × Bool :=
  let sizeTotal := cfg.CAPITAL * cfg.RISK_PERCENT / 100 * cfg.LEVERAGE / px
  if sizeTotal < minLot then (minLot, true) else (sizeTotal, false)

/-- The default BTCUSDT symbol configuration (part_000 lines 91-107). -/
def btcConfig : SymbolConfig :=
  { CAPITAL := 1000, RISK_PERCENT := 1, LEVERAGE := 5,
    HEDGE_LOSS_PERCENT := 8, HEDGE_TP_PERCENT := 10, HEDGE_SL_PERCENT := 5,
    MAIN_TP_PERCENT := 50, MAIN_PROTECTION_START := 20,
    MAIN_PROTECTION_PERCENT := 10 }

/-- C9 counterexample: in the claim's own scenario (BTCUSDT, capital 1000,
risk 1%, leverage 5, price 50,000) the computed size is
1000 × 0.01 × 5 / 50000 = 0.001 — exactly the minimum lot, not 0.0001 — so
the size is not below the minimum and no warning is emitted. -/
theorem entry_sizing_counterexample :
    btcConfig.CAPITAL * btcConfig.RISK_PERCENT / 100 * btcConfig.LEVERAGE / 50000 =
      1 / 1000 ∧
    ¬ btcConfig.CAPITAL * btcConfig.RISK_PERCENT / 100 * btcConfig.LEVERAGE / 50000 <
      minLotFor "BTCUSDT" ∧
    entrySizing btcConfig (minLotFor "BTCUSDT") 50000 = (1 / 1000, false) := by
  refine ⟨by norm_num [btcConfig], ?_, ?_⟩
  · norm_num [btcConfig, minLotFor, MIN_LOT_SIZES, List.lookup]
  · norm_num [entrySizing, btcConfig, minLotFor, MIN_LOT_SIZES, List.lookup]

/-- C9 amended: whenever the computed risk-based size is below the symbol's
minimum lot the engine substitutes the minimum lot and emits the
below-minimum warning, and otherwise trades the computed size silently;
in the claim's example scenario the computed size is exactly the minimum lot
(0.001, not 0.0001), so no substitution happens there — substitution does
occur e.g. at price 500,000. -/
theorem entry_min_lot_substitution (cfg : SymbolConfig) (minLot px : ℚ) :
    (cfg.CAPITAL * cfg.RISK_PERCENT / 100 * cfg.LEVERAGE / px < minLot →
      entrySizing cfg minLot px = (minLot, true)) ∧
    (¬ cfg.CAPITAL * cfg.RISK_PERCENT / 100 * cfg.LEVERAGE / px < minLot →
      entrySizing cfg minLot px =
        (cfg.CAPITAL * cfg.RISK_PERCENT / 100 * cfg.LEVERAGE / px, false)) := by
  constructor
  · intro h
    simp [entrySizing, h]
  · intro h
    simp [entrySizing, h]

/-- Witness for `entry_min_lot_substitution`: at price 500,000 the computed
size 0.0001 is below the BTCUSDT minimum lot 0.001, and the engine
substitutes the minimum lot with the warning flag set. -/
theorem entry_min_lot_substitution_witness :
    btcConfig.CAPITAL * btcConfig.RISK_PERCENT / 100 * btcConfig.LEVERAGE / 500000 <
      minLotFor "BTCUSDT" ∧
    entrySizing btcConfig (minLotFor "BTCUSDT") 500000 = (minLotFor "BTCUSDT", true) :=
  ⟨by norm_num [btcConfig, minLotFor, MIN_LOT_SIZES, List.lookup],
   (entry_min_lot_substitution btcConfig (minLotFor "BTCUSDT") 500000).1
     (by norm_num [btcConfig, minLotFor, MIN_LOT_SIZES, List.lookup])⟩

/-! ### Position/hedge lifecycle (C1, C2, C3)

The per-symbol main loop of part_000 (lines 413-633) in its demo path, where
no exchange call is made and every transition is total.  Sides are kept as
the strings the source stores: entry signals produce "long"/"short", while a
hedge stores the lowercased exchange side "sell"/"buy" (line 544) — so the
source's side === "long" / side === "short" comparisons on hedges are
modelled exactly as written.  Grid bookkeeping (lines 429-442) never touches
positions or trade history and is elided. -/

/-- An open position (state.openTrade / state.hedgeTrade): side string,
entry price, size, open timestamp, optional protective stop and the price
extremes tracked by the loop.  `openTime` is modelled by the tick counter. -/
structure Trade where
  side : String
  entryPx : ℚ
  size : ℚ
  openTime : Nat
  stopLossPrice : Option ℚ
  maxPrice : Option ℚ
  minPrice : Option ℚ
deriving Repr, DecidableEq

/-- Which slot a closed trade came from (the `tradeType` argument of
`closeTrade`). -/
inductive TradeType
  | main
  | hedge
deriving DecidableEq, Repr

/-- Close reasons appearing in part_000: "MAIN_TP_50%", "MAIN_SL_HIT",
"HEDGE_SL_HIT" and the "MAIN_CLOSED" used when a hedge is closed because its
main closed. -/
inductive CloseReason
  | MAIN_TP
  | MAIN_SL_HIT
  | HEDGE_SL_HIT
  | MAIN_CLOSED
deriving DecidableEq, Repr

/-- The record pushed to state.trades by `closeTrade` (part_000 lines
374-381); the open/close wall-clock timestamps are elided. -/
structure TradeRecord where
  tradeType : TradeType
  side : String
  entryPx : ℚ
  size : ℚ
  exitPrice : ℚ
  profitPct : ℚ
  closeReason : CloseReason
  openTime : Nat
deriving Repr, DecidableEq

/-- The per-symbol state owned by the main loop: the main Position slot, the
hedge Position slot, the append-only trade history, and a tick counter
standing in for Date.now(). -/
structure SymState where
  openTrade : Option Trade
  hedgeTrade : Option Trade
  trades : List TradeRecord
  now : Nat
deriving Repr, DecidableEq

/-- JS truthiness of an optional number: null/undefined and 0 are falsy. -/
def jsTruthy (o : Option ℚ) : Bool :=
  match o with
  | none => false
  | some x => decide (x ≠ 0)

/-- Signed profit percent (part_000 lines 357-359, 520-522, 570-572): the
long formula when the stored side string is "long", the short formula
otherwise. -/
def profitPct (side : String) (entryPx exitPx : ℚ) : ℚ :=
  if side = "long" then (exitPx - entryPx) / entryPx * 100
  else (entryPx - exitPx) / entryPx * 100

/-- The TradeRecord appended for a closing trade (part_000 lines 374-381). -/
def mkRecord (ty : TradeType) (t : Trade) (reason : CloseReason)
    (exitPrice : ℚ) : TradeRecord :=
  { tradeType := ty, side := t.side, entryPx := t.entryPx, size := t.size,
    exitPrice := exitPrice, profitPct := profitPct t.side t.entryPx exitPrice,
    closeReason := reason, openTime := t.openTime }

/-- The call `closeTrade(sym, reason, exitPrice, "hedge")` (part_000 lines 342-410),
demo path: record the hedge and clear the hedge slot; a no-op when no hedge
is open. -/
def closeHedgeTrade (reason : CloseReason) (exitPrice : ℚ) (s : SymState) :
    SymState :=
  match s.hedgeTrade with
  | none => s
  | some h =>
    { s with trades := s.trades ++ [mkRecord .hedge h reason exitPrice],
             hedgeTrade := none }

/-- The call `closeTrade(sym, reason, exitPrice, "main")` (part_000 lines 342-410),
demo path: record the main trade, clear the main slot, then — if a hedge is
open — close it with reason MAIN_CLOSED (the recursive call at line 388). -/
def closeMainTrade (reason : CloseReason) (exitPrice : ℚ) (s : SymState) :
    SymState :=
  match s.openTrade with
  | none => s
  | some t =>
    let s1 : SymState :=
      { s with trades := s.trades ++ [mkRecord .main t reason exitPrice],
               openTrade := none }
    if s1.hedgeTrade.isSome then closeHedgeTrade .MAIN_CLOSED exitPrice s1 else s1

/-- The entry branch of the main loop (part_000 lines 445-502): when no main
position exists and a signal fires, open a main trade at the tick price with
the (minimum-lot-substituted) risk-based size. -/
def entryStep (cfg : SymbolConfig) (minLot px : ℚ) (signal : Option String)
    (s : SymState) : SymState :=
  match signal with
  | none => s
  | some sig =>
    let t : Trade :=
      { side := sig, entryPx := px, size := (entrySizing cfg minLot px).1,
        openTime := s.now, stopLossPrice := none,
        maxPrice := none, minPrice := none }
    { s with openTrade := some t }

/-- Price-extreme tracking on the main trade (part_000 lines 508-517);
the initializations test JS truthiness like the source does. -/
def updateExtremes (px : ℚ) (t0 : Trade) : Trade :=
  let mx0 := if jsTruthy t0.maxPrice then t0.maxPrice.getD 0 else t0.entryPx
  let mn0 := if jsTruthy t0.minPrice then t0.minPrice.getD 0 else t0.entryPx
  let mx := if t0.side = "long" ∧ px > mx0 then px else mx0
  let mn := if t0.side = "short" ∧ px < mn0 then px else mn0
  { t0 with maxPrice := some mx, minPrice := some mn }

/-- The hedging branch (part_000 lines 524-563): when no hedge exists and the
main loss reaches HEDGE_LOSS_PERCENT, open an opposite hedge of equal size,
storing the lowercased exchange side ("sell" for a long main, "buy"
otherwise) with no stop attached. -/
def hedgeOpenStep (cfg : SymbolConfig) (px : ℚ) (t : Trade) (s1 : SymState)
    (mainProfitPct : ℚ) : SymState :=
  if s1.hedgeTrade.isNone ∧ mainProfitPct ≤ -cfg.HEDGE_LOSS_PERCENT then
    let h : Trade :=
      { side := if t.side = "long" then "sell" else "buy",
        entryPx := px, size := t.size, openTime := s1.now,
        stopLossPrice := none, maxPrice := none, minPrice := none }
    { s1 with hedgeTrade := some h }
  else s1

/-- The hedge stop price computed at activation (part_000 lines 576-580). -/
def hedgeStopValue (cfg : SymbolConfig) (h : Trade) (hedgeProfitPct : ℚ) : ℚ :=
  if h.side = "long" then
    h.entryPx * (1 + (hedgeProfitPct - cfg.HEDGE_SL_PERCENT) / 100)
  else
    h.entryPx * (1 - (hedgeProfitPct - cfg.HEDGE_SL_PERCENT) / 100)

/-- The stop-cross test as written in the source (lines 591-592 and 622-623):
price at or below the stop for side "long", at or above it for side "short".
A hedge's stored side is "sell"/"buy", so for hedges both disjuncts are
false — faithful to the source. -/
def stopCrossed (side : String) (px sl : ℚ) : Prop :=
  (side = "long" ∧ px ≤ sl) ∨ (side = "short" ∧ px ≥ sl)

instance (side : String) (px sl : ℚ) : Decidable (stopCrossed side px sl) := by
  unfold stopCrossed
  infer_instance

/-- Hedge management (part_000 lines 565-596): attach the stop when the hedge
profit reaches HEDGE_TP_PERCENT and no (truthy) stop exists, then run the
stop-cross close check. -/
def hedgeManageStep (cfg : SymbolConfig) (px : ℚ) (s2 : SymState) : SymState :=
  match s2.hedgeTrade with
  | none => s2
  | some h0 =>
    let hedgeProfitPct := profitPct h0.side h0.entryPx px
    let h := if hedgeProfitPct ≥ cfg.HEDGE_TP_PERCENT ∧ jsTruthy h0.stopLossPrice = false
      then { h0 with stopLossPrice := some (hedgeStopValue cfg h0 hedgeProfitPct) }
      else h0
    let s2h := { s2 with hedgeTrade := some h }
    if jsTruthy h.stopLossPrice = true ∧ stopCrossed h.side px (h.stopLossPrice.getD 0)
      then closeHedgeTrade .HEDGE_SL_HIT px s2h
    else s2h

/-- Main protective-stop attachment (part_000 lines 598-612): when the main
profit exceeds MAIN_PROTECTION_START and no (truthy) stop exists, attach the
stop at MAIN_PROTECTION_PERCENT locked-in profit. -/
def mainStopAttachStep (cfg : SymbolConfig) (mainProfitPct : ℚ) (s3 : SymState) :
    SymState :=
  match s3.openTrade with
  | none => s3
  | some tm =>
    if mainProfitPct > cfg.MAIN_PROTECTION_START ∧ jsTruthy tm.stopLossPrice = false
      then { s3 with openTrade := some { tm with stopLossPrice := some (
        if tm.side = "long" then tm.entryPx * (1 + cfg.MAIN_PROTECTION_PERCENT / 100)
        else tm.entryPx * (1 - cfg.MAIN_PROTECTION_PERCENT / 100)) } }
    else s3

/-- Main take-profit and stop-loss checks (part_000 lines 614-627): the
take-profit close runs first and ends the tick (`continue`); only otherwise
is the stop-cross close evaluated. -/
def mainExitStep (cfg : SymbolConfig) (px : ℚ) (mainProfitPct : ℚ)
    (s4 : SymState) : SymState :=
  if mainProfitPct ≥ cfg.MAIN_TP_PERCENT then closeMainTrade .MAIN_TP px s4
  else
    match s4.openTrade with
    | none => s4
    | some tm =>
      if jsTruthy tm.stopLossPrice = true ∧
          stopCrossed tm.side px (tm.stopLossPrice.getD 0)
        then closeMainTrade .MAIN_SL_HIT px s4
      else s4

/-- One per-symbol pass of the main loop body (part_000 lines 413-633, demo
path), before the tick counter advances. -/
def tickCore (cfg : SymbolConfig) (minLot px : ℚ) (signal : Option String)
    (s : SymState) : SymState :=
  match s.openTrade with
  | none => entryStep cfg minLot px signal s
  | some t0 =>
    let t := updateExtremes px t0
    let mainProfitPct := profitPct t.side t.entryPx px
    let s1 := { s with openTrade := some t }
    let s2 := hedgeOpenStep cfg px t s1 mainProfitPct
    let s3 := hedgeManageStep cfg px s2
    let s4 := mainStopAttachStep cfg mainProfitPct s3
    mainExitStep cfg px mainProfitPct s4

/-- One tick: the loop body followed by the advance of the timestamp
counter. -/
def tick (cfg : SymbolConfig) (minLot : ℚ) (input : ℚ × Option String)
    (s : SymState) : SymState :=
  let r := tickCore cfg minLot input.1 input.2 s
  { r with now := s.now + 1 }

/-- A run of the main loop over a sequence of (price, entry-signal) inputs. -/
def runTicks (cfg : SymbolConfig) (minLot : ℚ) (s : SymState)
    (inputs : List (ℚ × Option String)) : SymState :=
  inputs.foldl (fun st inp => tick cfg minLot inp st) s

/-- The TradeRecords appended by a single tick. -/
def newRecords (cfg : SymbolConfig) (minLot : ℚ) (input : ℚ × Option String)
    (s : SymState) : List TradeRecord :=
  (tick cfg minLot input s).trades.drop s.trades.length

/-! #### Step lemmas for the lifecycle -/

theorem updateExtremes_side (px : ℚ) (t0 : Trade) :
    (updateExtremes px t0).side = t0.side := rfl

theorem updateExtremes_entryPx (px : ℚ) (t0 : Trade) :
    (updateExtremes px t0).entryPx = t0.entryPx := rfl

theorem updateExtremes_openTime (px : ℚ) (t0 : Trade) :
    (updateExtremes px t0).openTime = t0.openTime := rfl

theorem updateExtremes_stopLossPrice (px : ℚ) (t0 : Trade) :
    (updateExtremes px t0).stopLossPrice = t0.stopLossPrice := rfl

theorem hedgeOpenStep_openTrade (cfg : SymbolConfig) (px : ℚ) (t : Trade)
    (s1 : SymState) (p : ℚ) :
    (hedgeOpenStep cfg px t s1 p).openTrade = s1.openTrade := by
  unfold hedgeOpenStep
  split <;> rfl

theorem hedgeOpenStep_trades (cfg : SymbolConfig) (px : ℚ) (t : Trade)
    (s1 : SymState) (p : ℚ) :
    (hedgeOpenStep cfg px t s1 p).trades = s1.trades := by
  unfold hedgeOpenStep
  split <;> rfl

theorem hedgeOpenStep_now (cfg : SymbolConfig) (px : ℚ) (t : Trade)
    (s1 : SymState) (p : ℚ) :
    (hedgeOpenStep cfg px t s1 p).now = s1.now := by
  unfold hedgeOpenStep
  split <;> rfl

theorem hedgeOpenStep_hedgeTrade (cfg : SymbolConfig) (px : ℚ) (t : Trade)
    (s1 : SymState) (p : ℚ) :
    (hedgeOpenStep cfg px t s1 p).hedgeTrade = s1.hedgeTrade ∨
    ∃ h, (hedgeOpenStep cfg px t s1 p).hedgeTrade = some h ∧
      h.openTime = s1.now ∧ h.stopLossPrice = none := by
  unfold hedgeOpenStep
  split
  · right
    exact ⟨_, rfl, rfl, rfl⟩
  · left
    rfl

theorem closeHedgeTrade_openTrade (r : CloseReason) (px : ℚ) (s : SymState) :
    (closeHedgeTrade r px s).openTrade = s.openTrade := by
  unfold closeHedgeTrade
  cases hh : s.hedgeTrade <;> simp

theorem closeHedgeTrade_now (r : CloseReason) (px : ℚ) (s : SymState) :
    (closeHedgeTrade r px s).now = s.now := by
  unfold closeHedgeTrade
  cases hh : s.hedgeTrade <;> simp

theorem closeHedgeTrade_hedge_none (r : CloseReason) (px : ℚ) (s : SymState) :
    (closeHedgeTrade r px s).hedgeTrade = none := by
  unfold closeHedgeTrade
  cases hh : s.hedgeTrade
  · simpa using hh
  · simp

theorem closeHedgeTrade_trades (r : CloseReason) (px : ℚ) (s : SymState) :
    ∃ rs, (closeHedgeTrade r px s).trades = s.trades ++ rs ∧
      ∀ rec ∈ rs, rec.tradeType = .hedge := by
  unfold closeHedgeTrade
  cases hh : s.hedgeTrade with
  | none => exact ⟨[], by simp, by simp⟩
  | some h0 => exact ⟨[mkRecord .hedge h0 r px], by simp, by simp [mkRecord]⟩

theorem closeMainTrade_of_none (r : CloseReason) (px : ℚ) (s : SymState)
    (h : s.openTrade = none) : closeMainTrade r px s = s := by
  unfold closeMainTrade
  rw [h]

theorem closeMainTrade_closed (r : CloseReason) (px : ℚ) (s : SymState)
    (t : Trade) (h : s.openTrade = some t) :
    (closeMainTrade r px s).openTrade = none ∧
    (closeMainTrade r px s).hedgeTrade = none := by
  unfold closeMainTrade
  rw [h]
  simp only
  split
  · exact ⟨by rw [closeHedgeTrade_openTrade], closeHedgeTrade_hedge_none _ _ _⟩
  · rename_i hno
    refine ⟨rfl, ?_⟩
    simpa using hno

theorem closeMainTrade_trades (r : CloseReason) (px : ℚ) (s : SymState)
    (t : Trade) (h : s.openTrade = some t) :
    ∃ rs, (closeMainTrade r px s).trades =
        s.trades ++ (mkRecord .main t r px :: rs) ∧
      ∀ rec ∈ rs, rec.tradeType = .hedge := by
  unfold closeMainTrade
  rw [h]
  simp only
  split
  · obtain ⟨rs, hrs, hty⟩ := closeHedgeTrade_trades .MAIN_CLOSED px
      { s with trades := s.trades ++ [mkRecord .main t r px], openTrade := none }
    exact ⟨rs, by simpa [List.append_assoc] using hrs, hty⟩
  · exact ⟨[], by simp, by simp⟩

theorem hedgeManageStep_openTrade (cfg : SymbolConfig) (px : ℚ) (s2 : SymState) :
    (hedgeManageStep cfg px s2).openTrade = s2.openTrade := by
  unfold hedgeManageStep
  cases hh : s2.hedgeTrade with
  | none => simp
  | some h0 =>
    simp only
    split <;> split <;> simp [closeHedgeTrade_openTrade]

theorem hedgeManageStep_now (cfg : SymbolConfig) (px : ℚ) (s2 : SymState) :
    (hedgeManageStep cfg px s2).now = s2.now := by
  unfold hedgeManageStep
  cases hh : s2.hedgeTrade with
  | none => simp
  | some h0 =>
    simp only
    split <;> split <;> simp [closeHedgeTrade_now]

theorem hedgeManageStep_trades (cfg : SymbolConfig) (px : ℚ) (s2 : SymState) :
    ∃ rs, (hedgeManageStep cfg px s2).trades = s2.trades ++ rs ∧
      ∀ rec ∈ rs, rec.tradeType = .hedge := by
  unfold hedgeManageStep
  cases hh : s2.hedgeTrade with
  | none => exact ⟨[], by simp, by simp⟩
  | some h0 =>
    simp only
    split <;> split
    case isTrue.isTrue =>
      obtain ⟨rs, hrs, hty⟩ := closeHedgeTrade_trades .HEDGE_SL_HIT px _
      exact ⟨rs, by simpa using hrs, hty⟩
    case isTrue.isFalse => exact ⟨[], by simp, by simp⟩
    case isFalse.isTrue =>
      obtain ⟨rs, hrs, hty⟩ := closeHedgeTrade_trades .HEDGE_SL_HIT px _
      exact ⟨rs, by simpa using hrs, hty⟩
    case isFalse.isFalse => exact ⟨[], by simp, by simp⟩

theorem mainStopAttachStep_hedgeTrade (cfg : SymbolConfig) (p : ℚ)
    (s3 : SymState) :
    (mainStopAttachStep cfg p s3).hedgeTrade = s3.hedgeTrade := by
  unfold mainStopAttachStep
  cases ho : s3.openTrade
  · simp
  · simp only
    split <;> rfl

theorem mainStopAttachStep_trades (cfg : SymbolConfig) (p : ℚ) (s3 : SymState) :
    (mainStopAttachStep cfg p s3).trades = s3.trades := by
  unfold mainStopAttachStep
  cases ho : s3.openTrade
  · simp
  · simp only
    split <;> rfl

theorem mainStopAttachStep_now (cfg : SymbolConfig) (p : ℚ) (s3 : SymState) :
    (mainStopAttachStep cfg p s3).now = s3.now := by
  unfold mainStopAttachStep
  cases ho : s3.openTrade
  · simp
  · simp only
    split <;> rfl

theorem mainStopAttachStep_openTrade_some (cfg : SymbolConfig) (p : ℚ)
    (s3 : SymState) (tm : Trade) (h : s3.openTrade = some tm) :
    ∃ tm4, (mainStopAttachStep cfg p s3).openTrade = some tm4 ∧
      tm4.side = tm.side ∧ tm4.entryPx = tm.entryPx ∧
      tm4.openTime = tm.openTime := by
  unfold mainStopAttachStep
  rw [h]
  simp only
  split
  · exact ⟨_, rfl, rfl, rfl, rfl⟩
  · exact ⟨tm, h, rfl, rfl, rfl⟩

theorem entryStep_hedgeTrade (cfg : SymbolConfig) (minLot px : ℚ)
    (sig : Option String) (s : SymState) :
    (entryStep cfg minLot px sig s).hedgeTrade = s.hedgeTrade := by
  unfold entryStep
  cases sig <;> rfl

theorem entryStep_trades (cfg : SymbolConfig) (minLot px : ℚ)
    (sig : Option String) (s : SymState) :
    (entryStep cfg minLot px sig s).trades = s.trades := by
  unfold entryStep
  cases sig <;> rfl

theorem entryStep_openTrade_cases (cfg : SymbolConfig) (minLot px : ℚ)
    (sig : Option String) (s : SymState) :
    (entryStep cfg minLot px sig s).openTrade = s.openTrade ∨
    ∃ t, (entryStep cfg minLot px sig s).openTrade = some t ∧
      t.openTime = s.now := by
  unfold entryStep
  cases sig
  · left
    rfl
  · right
    exact ⟨_, rfl, rfl⟩

theorem hedgeManageStep_hedgeTrade (cfg : SymbolConfig) (px : ℚ)
    (s2 : SymState) :
    (hedgeManageStep cfg px s2).hedgeTrade = none ∨
    (hedgeManageStep cfg px s2).hedgeTrade = s2.hedgeTrade ∨
    ∃ h0, s2.hedgeTrade = some h0 ∧ jsTruthy h0.stopLossPrice = false ∧
      (hedgeManageStep cfg px s2).hedgeTrade =
        some { h0 with
          stopLossPrice := some (hedgeStopValue cfg h0 (profitPct h0.side h0.entryPx px)) } := by
  unfold hedgeManageStep
  cases hh0 : s2.hedgeTrade with
  | none =>
    right
    left
    simp [hh0]
  | some h0 =>
    simp only
    split <;> split
    case isTrue.isTrue hatt _ =>
      left
      exact closeHedgeTrade_hedge_none _ _ _
    case isTrue.isFalse hatt _ =>
      right
      right
      exact ⟨h0, rfl, hatt.2, rfl⟩
    case isFalse.isTrue =>
      left
      exact closeHedgeTrade_hedge_none _ _ _
    case isFalse.isFalse =>
      right
      left
      rfl

theorem mainStopAttachStep_openTrade_cases (cfg : SymbolConfig) (p : ℚ)
    (s3 : SymState) :
    (mainStopAttachStep cfg p s3).openTrade = s3.openTrade ∨
    ∃ tm, s3.openTrade = some tm ∧ jsTruthy tm.stopLossPrice = false ∧
      (mainStopAttachStep cfg p s3).openTrade =
        some { tm with
          stopLossPrice := some (if tm.side = "long"
            then tm.entryPx * (1 + cfg.MAIN_PROTECTION_PERCENT / 100)
            else tm.entryPx * (1 - cfg.MAIN_PROTECTION_PERCENT / 100)) } := by
  unfold mainStopAttachStep
  cases ho : s3.openTrade with
  | none =>
    left
    simp [ho]
  | some tm =>
    simp only
    split
    case isTrue hc =>
      right
      exact ⟨tm, rfl, hc.2, rfl⟩
    case isFalse =>
      left
      exact ho

/-- The main Position opened at tick `T` (if any) carries stop price `v`. -/
def mainStopInv (T : Nat) (v : ℚ) (s : SymState) : Prop :=
  ∀ t, s.openTrade = some t → t.openTime = T → t.stopLossPrice = some v

/-- The hedge Position opened at tick `T` (if any) carries stop price `v`. -/
def hedgeStopInv (T : Nat) (v : ℚ) (s : SymState) : Prop :=
  ∀ h, s.hedgeTrade = some h → h.openTime = T → h.stopLossPrice = some v

theorem hedgeManageStep_ratchet (cfg : SymbolConfig) (px : ℚ) (s2 : SymState)
    (T : Nat) (v : ℚ) (hv : v ≠ 0) (hh : hedgeStopInv T v s2) :
    hedgeStopInv T v (hedgeManageStep cfg px s2) := by
  intro h hsome hT
  rcases hedgeManageStep_hedgeTrade cfg px s2 with hnone | hsame | ⟨h0, hh0, hfalsy, hatt⟩
  · rw [hnone] at hsome
    exact Option.noConfusion hsome
  · rw [hsame] at hsome
    exact hh h hsome hT
  · rw [hatt] at hsome
    injection hsome with he
    subst he
    have h0T : h0.openTime = T := hT
    have hstop := hh h0 hh0 h0T
    rw [hstop] at hfalsy
    simp [jsTruthy, hv] at hfalsy

theorem mainStopAttachStep_ratchet (cfg : SymbolConfig) (p : ℚ) (s3 : SymState)
    (T : Nat) (v : ℚ) (hv : v ≠ 0) (hm : mainStopInv T v s3) :
    mainStopInv T v (mainStopAttachStep cfg p s3) := by
  intro t hsome hT
  rcases mainStopAttachStep_openTrade_cases cfg p s3 with hsame | ⟨tm, htm, hfalsy, hatt⟩
  · rw [hsame] at hsome
    exact hm t hsome hT
  · rw [hatt] at hsome
    injection hsome with he
    subst he
    have tmT : tm.openTime = T := hT
    have hstop := hm tm htm tmT
    rw [hstop] at hfalsy
    simp [jsTruthy, hv] at hfalsy

theorem mainExitStep_openTrade (cfg : SymbolConfig) (px p : ℚ) (s4 : SymState) :
    (mainExitStep cfg px p s4).openTrade = none ∨
    mainExitStep cfg px p s4 = s4 := by
  unfold mainExitStep
  split
  · cases ho : s4.openTrade with
    | none => right; exact closeMainTrade_of_none _ _ _ ho
    | some t => left; exact (closeMainTrade_closed _ _ _ t ho).1
  · cases ho : s4.openTrade with
    | none => right; rfl
    | some tm =>
      simp only
      split
      · left
        exact (closeMainTrade_closed _ _ _ tm ho).1
      · right
        rfl

theorem mainExitStep_hedgeTrade (cfg : SymbolConfig) (px p : ℚ) (s4 : SymState) :
    (mainExitStep cfg px p s4).hedgeTrade = none ∨
    mainExitStep cfg px p s4 = s4 := by
  unfold mainExitStep
  split
  · cases ho : s4.openTrade with
    | none => right; exact closeMainTrade_of_none _ _ _ ho
    | some t => left; exact (closeMainTrade_closed _ _ _ t ho).2
  · cases ho : s4.openTrade with
    | none => right; rfl
    | some tm =>
      simp only
      split
      · left
        exact (closeMainTrade_closed _ _ _ tm ho).2
      · right
        rfl

theorem mainExitStep_inv (cfg : SymbolConfig) (px p : ℚ) (s4 : SymState)
    (tm : Trade) (h : s4.openTrade = some tm) :
    (mainExitStep cfg px p s4).hedgeTrade.isSome →
    (mainExitStep cfg px p s4).openTrade.isSome := by
  unfold mainExitStep
  split
  · intro hh
    rw [(closeMainTrade_closed _ _ _ tm h).2] at hh
    simp at hh
  · rw [h]
    simp only
    split
    · intro hh
      rw [(closeMainTrade_closed _ _ _ tm h).2] at hh
      simp at hh
    · intro _
      rw [h]
      simp

theorem mainExitStep_TP (cfg : SymbolConfig) (px p : ℚ) (s4 : SymState)
    (tm : Trade) (h : s4.openTrade = some tm) (hp : p ≥ cfg.MAIN_TP_PERCENT) :
    (mainExitStep cfg px p s4).openTrade = none ∧
    ∃ rs, (mainExitStep cfg px p s4).trades =
        s4.trades ++ (mkRecord .main tm .MAIN_TP px :: rs) ∧
      ∀ rec ∈ rs, rec.tradeType = .hedge := by
  unfold mainExitStep
  rw [if_pos hp]
  exact ⟨(closeMainTrade_closed _ _ _ tm h).1, closeMainTrade_trades _ _ _ tm h⟩

/-- The pipeline form of the management branch of one loop pass. -/
theorem tickCore_some (cfg : SymbolConfig) (minLot px : ℚ) (sig : Option String)
    (s : SymState) (t0 : Trade) (h : s.openTrade = some t0) :
    tickCore cfg minLot px sig s =
      mainExitStep cfg px (profitPct t0.side t0.entryPx px)
        (mainStopAttachStep cfg (profitPct t0.side t0.entryPx px)
          (hedgeManageStep cfg px
            (hedgeOpenStep cfg px (updateExtremes px t0)
              { s with openTrade := some (updateExtremes px t0) }
              (profitPct t0.side t0.entryPx px)))) := by
  unfold tickCore
  rw [h]
  rfl

theorem tickCore_none (cfg : SymbolConfig) (minLot px : ℚ) (sig : Option String)
    (s : SymState) (h : s.openTrade = none) :
    tickCore cfg minLot px sig s = entryStep cfg minLot px sig s := by
  unfold tickCore
  rw [h]

theorem tick_openTrade (cfg : SymbolConfig) (minLot : ℚ)
    (inp : ℚ × Option String) (s : SymState) :
    (tick cfg minLot inp s).openTrade = (tickCore cfg minLot inp.1 inp.2 s).openTrade := rfl

theorem tick_hedgeTrade (cfg : SymbolConfig) (minLot : ℚ)
    (inp : ℚ × Option String) (s : SymState) :
    (tick cfg minLot inp s).hedgeTrade = (tickCore cfg minLot inp.1 inp.2 s).hedgeTrade := rfl

theorem tick_trades (cfg : SymbolConfig) (minLot : ℚ)
    (inp : ℚ × Option String) (s : SymState) :
    (tick cfg minLot inp s).trades = (tickCore cfg minLot inp.1 inp.2 s).trades := rfl

theorem tick_now (cfg : SymbolConfig) (minLot : ℚ)
    (inp : ℚ × Option String) (s : SymState) :
    (tick cfg minLot inp s).now = s.now + 1 := rfl

theorem entryStep_none (cfg : SymbolConfig) (minLot px : ℚ) (s : SymState) :
    entryStep cfg minLot px none s = s := rfl

theorem mainStopInv_congr (T : Nat) (v : ℚ) (s s2 : SymState)
    (h : s2.openTrade = s.openTrade) (hm : mainStopInv T v s) :
    mainStopInv T v s2 := by
  intro t ht hT
  refine hm t ?_ hT
  rw [← h]
  exact ht

theorem hedgeStopInv_congr (T : Nat) (v : ℚ) (s s2 : SymState)
    (h : s2.hedgeTrade = s.hedgeTrade) (hh : hedgeStopInv T v s) :
    hedgeStopInv T v s2 := by
  intro t ht hT
  refine hh t ?_ hT
  rw [← h]
  exact ht

theorem tick_hedge_inv (cfg : SymbolConfig) (minLot : ℚ)
    (inp : ℚ × Option String) (s : SymState)
    (h : s.hedgeTrade.isSome → s.openTrade.isSome) :
    (tick cfg minLot inp s).hedgeTrade.isSome →
    (tick cfg minLot inp s).openTrade.isSome := by
  rw [tick_hedgeTrade, tick_openTrade]
  cases ho : s.openTrade with
  | none =>
    rw [tickCore_none cfg minLot inp.1 inp.2 s ho]
    cases hsig : inp.2 with
    | none =>
      rw [entryStep_none]
      intro hh
      have := h hh
      rw [ho] at this
      simp at this
    | some sig =>
      intro _
      simp [entryStep]
  | some t0 =>
    rw [tickCore_some cfg minLot inp.1 inp.2 s t0 ho]
    have h2 : (hedgeOpenStep cfg inp.1 (updateExtremes inp.1 t0)
        { s with openTrade := some (updateExtremes inp.1 t0) }
        (profitPct t0.side t0.entryPx inp.1)).openTrade =
        some (updateExtremes inp.1 t0) := by
      rw [hedgeOpenStep_openTrade]
    have h3 : (hedgeManageStep cfg inp.1
        (hedgeOpenStep cfg inp.1 (updateExtremes inp.1 t0)
          { s with openTrade := some (updateExtremes inp.1 t0) }
          (profitPct t0.side t0.entryPx inp.1))).openTrade =
        some (updateExtremes inp.1 t0) := by
      rw [hedgeManageStep_openTrade]
      exact h2
    obtain ⟨tm4, h4, -, -, -⟩ :=
      mainStopAttachStep_openTrade_some cfg (profitPct t0.side t0.entryPx inp.1) _ _ h3
    exact mainExitStep_inv cfg inp.1 (profitPct t0.side t0.entryPx inp.1) _ tm4 h4

theorem tick_mainStop_step (cfg : SymbolConfig) (minLot : ℚ)
    (inp : ℚ × Option String) (s : SymState) (T : Nat) (v : ℚ)
    (hv : v ≠ 0) (hT : T < s.now) (hm : mainStopInv T v s) :
    mainStopInv T v (tick cfg minLot inp s) := by
  intro t ht hTt
  rw [tick_openTrade] at ht
  cases ho : s.openTrade with
  | none =>
    rw [tickCore_none cfg minLot inp.1 inp.2 s ho] at ht
    rcases entryStep_openTrade_cases cfg minLot inp.1 inp.2 s with hsame | ⟨t2, ht2, htime⟩
    · rw [hsame, ho] at ht
      exact Option.noConfusion ht
    · rw [ht2] at ht
      injection ht with he
      subst he
      rw [htime] at hTt
      omega
  | some t0 =>
    rw [tickCore_some cfg minLot inp.1 inp.2 s t0 ho] at ht
    have inv1 : mainStopInv T v
        { s with openTrade := some (updateExtremes inp.1 t0) } := by
      intro u hu hTu
      injection hu with he
      subst he
      have h0T : t0.openTime = T := hTu
      have := hm t0 ho h0T
      rw [updateExtremes_stopLossPrice]
      exact this
    have inv2 := mainStopInv_congr T v _ _
      (hedgeOpenStep_openTrade cfg inp.1 (updateExtremes inp.1 t0)
        { s with openTrade := some (updateExtremes inp.1 t0) }
        (profitPct t0.side t0.entryPx inp.1)) inv1
    have inv3 := mainStopInv_congr T v _ _
      (hedgeManageStep_openTrade cfg inp.1 _) inv2
    have inv4 := mainStopAttachStep_ratchet cfg
      (profitPct t0.side t0.entryPx inp.1) _ T v hv inv3
    rcases mainExitStep_openTrade cfg inp.1 (profitPct t0.side t0.entryPx inp.1)
        (mainStopAttachStep cfg (profitPct t0.side t0.entryPx inp.1)
          (hedgeManageStep cfg inp.1
            (hedgeOpenStep cfg inp.1 (updateExtremes inp.1 t0)
              { s with openTrade := some (updateExtremes inp.1 t0) }
              (profitPct t0.side t0.entryPx inp.1)))) with hnone | heq
    · rw [hnone] at ht
      exact Option.noConfusion ht
    · rw [heq] at ht
      exact inv4 t ht hTt

theorem tick_hedgeStop_step (cfg : SymbolConfig) (minLot : ℚ)
    (inp : ℚ × Option String) (s : SymState) (T : Nat) (v : ℚ)
    (hv : v ≠ 0) (hT : T < s.now) (hh : hedgeStopInv T v s) :
    hedgeStopInv T v (tick cfg minLot inp s) := by
  intro hdg hsome hTt
  rw [tick_hedgeTrade] at hsome
  cases ho : s.openTrade with
  | none =>
    rw [tickCore_none cfg minLot inp.1 inp.2 s ho] at hsome
    rw [entryStep_hedgeTrade] at hsome
    exact hh hdg hsome hTt
  | some t0 =>
    rw [tickCore_some cfg minLot inp.1 inp.2 s t0 ho] at hsome
    have inv1 : hedgeStopInv T v
        { s with openTrade := some (updateExtremes inp.1 t0) } :=
      hedgeStopInv_congr T v s _ rfl hh
    have inv2 : hedgeStopInv T v
        (hedgeOpenStep cfg inp.1 (updateExtremes inp.1 t0)
          { s with openTrade := some (updateExtremes inp.1 t0) }
          (profitPct t0.side t0.entryPx inp.1)) := by
      intro u hu hTu
      rcases hedgeOpenStep_hedgeTrade cfg inp.1 (updateExtremes inp.1 t0)
          { s with openTrade := some (updateExtremes inp.1 t0) }
          (profitPct t0.side t0.entryPx inp.1) with hsame | ⟨h2, hh2, htime, -⟩
      · rw [hsame] at hu
        exact inv1 u hu hTu
      · rw [hh2] at hu
        injection hu with he
        subst he
        exfalso
        have hTnow : T = s.now := by
          rw [← hTu]
          exact htime
        omega
    have inv3 := hedgeManageStep_ratchet cfg inp.1 _ T v hv inv2
    have inv4 := hedgeStopInv_congr T v _ _
      (mainStopAttachStep_hedgeTrade cfg (profitPct t0.side t0.entryPx inp.1) _) inv3
    rcases mainExitStep_hedgeTrade cfg inp.1 (profitPct t0.side t0.entryPx inp.1)
        (mainStopAttachStep cfg (profitPct t0.side t0.entryPx inp.1)
          (hedgeManageStep cfg inp.1
            (hedgeOpenStep cfg inp.1 (updateExtremes inp.1 t0)
              { s with openTrade := some (updateExtremes inp.1 t0) }
              (profitPct t0.side t0.entryPx inp.1)))) with hnone | heq
    · rw [hnone] at hsome
      exact Option.noConfusion hsome
    · rw [heq] at hsome
      exact inv4 hdg hsome hTt

/-- C1 amended: (a) along every run of the main loop, a state whose hedge slot
can only be filled when the main slot is, never reaches a hedge without a
main — the hedge Position cannot exist while the main slot is empty; and
(b) closing the main position with any reason is one total transition that
records the main TradeRecord and clears the main slot, then records the open
hedge with reason MAIN_CLOSED and clears the hedge slot — both records and
both clears happen in that single transition, with the main recorded first
(not the hedge first, as the claim orders it). -/
theorem hedge_requires_main (cfg : SymbolConfig) (minLot : ℚ)
    (inputs : List (ℚ × Option String)) (s : SymState) (reason : CloseReason)
    (px : ℚ) (t h : Trade) :
    ((s.hedgeTrade.isSome → s.openTrade.isSome) →
      ((runTicks cfg minLot s inputs).hedgeTrade.isSome →
        (runTicks cfg minLot s inputs).openTrade.isSome)) ∧
    (s.openTrade = some t → s.hedgeTrade = some h →
      closeMainTrade reason px s =
        { openTrade := none, hedgeTrade := none,
          trades := s.trades ++
            [mkRecord .main t reason px, mkRecord .hedge h .MAIN_CLOSED px],
          now := s.now }) := by
  constructor
  · intro hinv
    have key : ∀ (l : List (ℚ × Option String)) (st : SymState),
        (st.hedgeTrade.isSome → st.openTrade.isSome) →
        (runTicks cfg minLot st l).hedgeTrade.isSome →
        (runTicks cfg minLot st l).openTrade.isSome := by
      intro l
      induction l with
      | nil => intro st hstep; exact hstep
      | cons a rest ih =>
        intro st hstep
        exact ih _ (tick_hedge_inv cfg minLot a st hstep)
    exact key inputs s hinv
  · intro ht hh
    unfold closeMainTrade closeHedgeTrade
    rw [ht]
    simp [hh, List.append_assoc]

/-- The main trade of the concrete close-ordering scenario. -/
def cexMainTrade : Trade :=
  { side := "long", entryPx := 100, size := 1, openTime := 0,
    stopLossPrice := none, maxPrice := none, minPrice := none }

/-- The hedge trade of the concrete close-ordering scenario. -/
def cexHedgeTrade : Trade :=
  { side := "sell", entryPx := 92, size := 1, openTime := 1,
    stopLossPrice := none, maxPrice := none, minPrice := none }

/-- A state with both a main and a hedge Position open. -/
def cexState : SymState :=
  { openTrade := some cexMainTrade, hedgeTrade := some cexHedgeTrade,
    trades := [], now := 2 }

/-- C1 counterexample: in the close transition of a main with an open hedge,
the hedge is NOT closed first — the transition appends the main TradeRecord
(reason MAIN_TP here) before the hedge one (reason MAIN_CLOSED), i.e. the
source records the main and clears its slot before it closes the hedge. -/
theorem close_order_counterexample :
    (closeMainTrade .MAIN_TP 150 cexState).trades.map TradeRecord.tradeType =
      [TradeType.main, TradeType.hedge] ∧
    (closeMainTrade .MAIN_TP 150 cexState).trades.map TradeRecord.closeReason =
      [CloseReason.MAIN_TP, CloseReason.MAIN_CLOSED] := by
  constructor <;> rfl

/-- Witness for `hedge_requires_main` at the concrete two-position state. -/
theorem hedge_requires_main_witness :
    (cexState.hedgeTrade.isSome → cexState.openTrade.isSome) ∧
    ((runTicks btcConfig (1 / 1000) cexState [(150, none)]).hedgeTrade.isSome →
      (runTicks btcConfig (1 / 1000) cexState [(150, none)]).openTrade.isSome) ∧
    cexState.openTrade = some cexMainTrade ∧
    cexState.hedgeTrade = some cexHedgeTrade ∧
    closeMainTrade .MAIN_TP 150 cexState =
      { openTrade := none, hedgeTrade := none,
        trades := cexState.trades ++
          [mkRecord .main cexMainTrade .MAIN_TP 150,
           mkRecord .hedge cexHedgeTrade .MAIN_CLOSED 150],
        now := cexState.now } := by
  refine ⟨fun _ => by simp [cexState], ?_, rfl, rfl, ?_⟩
  · exact (hedge_requires_main btcConfig (1 / 1000) [(150, none)] cexState
      .MAIN_TP 150 cexMainTrade cexHedgeTrade).1 (fun _ => by simp [cexState])
  · exact (hedge_requires_main btcConfig (1 / 1000) [(150, none)] cexState
      .MAIN_TP 150 cexMainTrade cexHedgeTrade).2 rfl rfl

/-- C2: once a (nonzero) stop-loss price `v` is attached to the main or hedge
Position opened at tick `T`, then over any later run of the main loop, as
long as that same Position is still in its slot its stop-loss price is still
exactly `v` — attachment happens only once and nothing afterwards rewrites
the stored stop. -/
theorem stop_loss_ratchet (cfg : SymbolConfig) (minLot : ℚ)
    (inputs : List (ℚ × Option String)) (s : SymState) (T : Nat) (v : ℚ)
    (hv : v ≠ 0) (hT : T < s.now) :
    (mainStopInv T v s → mainStopInv T v (runTicks cfg minLot s inputs)) ∧
    (hedgeStopInv T v s → hedgeStopInv T v (runTicks cfg minLot s inputs)) := by
  have key : ∀ (l : List (ℚ × Option String)) (st : SymState), T < st.now →
      (mainStopInv T v st → mainStopInv T v (runTicks cfg minLot st l)) ∧
      (hedgeStopInv T v st → hedgeStopInv T v (runTicks cfg minLot st l)) := by
    intro l
    induction l with
    | nil => intro st _; exact ⟨id, id⟩
    | cons a rest ih =>
      intro st hTs
      have hT2 : T < (tick cfg minLot a st).now := by
        rw [tick_now]
        omega
      constructor
      · intro hm
        exact (ih _ hT2).1 (tick_mainStop_step cfg minLot a st T v hv hTs hm)
      · intro hhh
        exact (ih _ hT2).2 (tick_hedgeStop_step cfg minLot a st T v hv hTs hhh)
  exact key inputs s hT

/-- The main trade of the ratchet scenario: long from 100 whose protective
stop 110 was attached when profit first exceeded 20% (at 121). -/
def ratchetTrade : Trade :=
  { side := "long", entryPx := 100, size := 1, openTime := 0,
    stopLossPrice := some 110, maxPrice := some 121, minPrice := some 100 }

/-- The state right after the stop was attached. -/
def ratchetState : SymState :=
  { openTrade := some ratchetTrade, hedgeTrade := none, trades := [], now := 1 }

/-- Witness for `stop_loss_ratchet`: the profit sequence 21% → 25% → 18%
(prices 121, 125, 118 from entry 100) leaves the stop attached at 110
unchanged. -/
theorem stop_loss_ratchet_witness :
    (110 : ℚ) ≠ 0 ∧ 0 < ratchetState.now ∧
    mainStopInv 0 110 (runTicks btcConfig (1 / 1000) ratchetState
      [(125, none), (118, none)]) ∧
    hedgeStopInv 0 110 (runTicks btcConfig (1 / 1000) ratchetState
      [(125, none), (118, none)]) := by
  have hmInit : mainStopInv 0 110 ratchetState := by
    intro t ht hT
    simp only [ratchetState] at ht
    injection ht with he
    subst he
    rfl
  have hhInit : hedgeStopInv 0 110 ratchetState := by
    intro hdg hh hT
    simp [ratchetState] at hh
  refine ⟨by norm_num, by norm_num [ratchetState], ?_, ?_⟩
  · exact (stop_loss_ratchet btcConfig (1 / 1000) [(125, none), (118, none)]
      ratchetState 0 110 (by norm_num) (by norm_num [ratchetState])).1 hmInit
  · exact (stop_loss_ratchet btcConfig (1 / 1000) [(125, none), (118, none)]
      ratchetState 0 110 (by norm_num) (by norm_num [ratchetState])).2 hhInit

/-- A record of the given slot and close reason is among the list. -/
def hasRecord (l : List TradeRecord) (ty : TradeType) (reason : CloseReason) :
    Prop :=
  ∃ rec ∈ l, rec.tradeType = ty ∧ rec.closeReason = reason

/-- C3: in a tick with an open main position, if the take-profit threshold is
reached (profit percent ≥ MAIN_TP_PERCENT) the main closes with the
take-profit reason and no main stop-loss close happens in that tick — the
stop check is skipped; conversely a main stop-loss close can only be appended
in a tick where the take-profit condition does not hold. -/
theorem tp_priority (cfg : SymbolConfig) (minLot px : ℚ) (sig : Option String)
    (s : SymState) (t0 : Trade) (h : s.openTrade = some t0) :
    (profitPct t0.side t0.entryPx px ≥ cfg.MAIN_TP_PERCENT →
      (tick cfg minLot (px, sig) s).openTrade = none ∧
      hasRecord (newRecords cfg minLot (px, sig) s) .main .MAIN_TP ∧
      ¬ hasRecord (newRecords cfg minLot (px, sig) s) .main .MAIN_SL_HIT) ∧
    (hasRecord (newRecords cfg minLot (px, sig) s) .main .MAIN_SL_HIT →
      profitPct t0.side t0.entryPx px < cfg.MAIN_TP_PERCENT) := by
  have htc := tickCore_some cfg minLot px sig s t0 h
  set P := profitPct t0.side t0.entryPx px with hP
  set s1 : SymState := { s with openTrade := some (updateExtremes px t0) } with hs1
  set s2 := hedgeOpenStep cfg px (updateExtremes px t0) s1 P with hs2
  set s3 := hedgeManageStep cfg px s2 with hs3
  set s4 := mainStopAttachStep cfg P s3 with hs4
  have h2o : s2.openTrade = some (updateExtremes px t0) := by
    rw [hs2, hedgeOpenStep_openTrade, hs1]
  have h3o : s3.openTrade = some (updateExtremes px t0) := by
    rw [hs3, hedgeManageStep_openTrade]
    exact h2o
  obtain ⟨tm4, h4o, -, -, -⟩ :=
    mainStopAttachStep_openTrade_some cfg P s3 _ h3o
  rw [← hs4] at h4o
  obtain ⟨rs1, hrs1, hty1⟩ := hedgeManageStep_trades cfg px s2
  rw [← hs3] at hrs1
  have h2t : s2.trades = s.trades := by
    rw [hs2, hedgeOpenStep_trades, hs1]
  have h4t : s4.trades = s.trades ++ rs1 := by
    rw [hs4, mainStopAttachStep_trades, hrs1, h2t]
  have part1 : P ≥ cfg.MAIN_TP_PERCENT →
      (tick cfg minLot (px, sig) s).openTrade = none ∧
      hasRecord (newRecords cfg minLot (px, sig) s) .main .MAIN_TP ∧
      ¬ hasRecord (newRecords cfg minLot (px, sig) s) .main .MAIN_SL_HIT := by
    intro hp
    obtain ⟨hopen, rs2, hrs2, hty2⟩ := mainExitStep_TP cfg px P s4 tm4 h4o hp
    have hNew : newRecords cfg minLot (px, sig) s =
        rs1 ++ (mkRecord .main tm4 .MAIN_TP px :: rs2) := by
      unfold newRecords
      rw [tick_trades, htc, hrs2, h4t, List.append_assoc, List.drop_left]
    refine ⟨?_, ?_, ?_⟩
    · rw [tick_openTrade, htc]
      exact hopen
    · rw [hNew]
      exact ⟨mkRecord .main tm4 .MAIN_TP px, by simp, rfl, rfl⟩
    · rw [hNew]
      rintro ⟨rec, hmem, hty, hreason⟩
      rw [List.mem_append] at hmem
      rcases hmem with hmem1 | hmem2
      · have hhty := hty1 rec hmem1
        rw [hhty] at hty
        simp at hty
      · rcases List.mem_cons.mp hmem2 with heq | hmem3
        · subst heq
          simp [mkRecord] at hreason
        · have hhty := hty2 rec hmem3
          rw [hhty] at hty
          simp at hty
  refine ⟨part1, fun hSL => ?_⟩
  by_cases hp : P ≥ cfg.MAIN_TP_PERCENT
  · exact absurd hSL (part1 hp).2.2
  · exact not_le.mp hp

/-- The main trade of the take-profit scenario: long from entry 100. -/
def tpTrade : Trade :=
  { side := "long", entryPx := 100, size := 1, openTime := 0,
    stopLossPrice := none, maxPrice := none, minPrice := none }

/-- A state holding only that main position. -/
def tpState : SymState :=
  { openTrade := some tpTrade, hedgeTrade := none, trades := [], now := 1 }

/-- Witness for `tp_priority`: main long at entry 100 with MAIN_TP_PERCENT=50
reaches +50% at price 150, the tick closes it with the take-profit reason and
appends no stop-loss close. -/
theorem tp_priority_witness :
    tpState.openTrade = some tpTrade ∧
    profitPct tpTrade.side tpTrade.entryPx 150 ≥ btcConfig.MAIN_TP_PERCENT ∧
    (tick btcConfig (1 / 1000) (150, none) tpState).openTrade = none ∧
    hasRecord (newRecords btcConfig (1 / 1000) (150, none) tpState)
      .main .MAIN_TP ∧
    ¬ hasRecord (newRecords btcConfig (1 / 1000) (150, none) tpState)
      .main .MAIN_SL_HIT := by
  have hp : profitPct tpTrade.side tpTrade.entryPx 150 ≥ btcConfig.MAIN_TP_PERCENT := by
    norm_num [profitPct, tpTrade, btcConfig]
  obtain ⟨ho, hr, hn⟩ :=
    (tp_priority btcConfig (1 / 1000) 150 none tpState tpTrade rfl).1 hp
  exact ⟨rfl, hp, ho, hr, hn⟩
